import Mathlib

/-!
# Verification of the sponsor-segment classifier (`backend/sponsor_classifier.py`)

This file gives a shallow embedding, in Lean 4, of the core classification
pipeline of the sponsor-sniper repository: the transcript windower
(`_preprocess_transcript`), the keyword heuristic (`_heuristic_classification`),
the oracle wrapper (`_deepseek_classification`), the segment builder, the
merge/extend/filter passes of `classify_segments`, and the known-pattern
boundary snap (`_specific_sponsor_boundaries`).

Modelling conventions:
* Python floats (times, probabilities, thresholds) are modelled as `ℚ`.
* Python strings are Lean `String`s; `in` (substring test) is an executable
  infix check over the underlying character lists; `str.lower()` maps ASCII
  upper-case letters to lower-case.
* Fallible code is modelled in `Option`: `_preprocess_transcript` returns
  `none` exactly when the Python function would raise an `IndexError`
  (indexing `window[0]` of an empty slice).
* The external oracle call is modelled by an `OracleOutcome` value describing
  what the network/parse layer produced; the classifier itself is embedded
  exactly.
-/

namespace SponsorSniper

attribute [local semireducible] Rat.add Rat.mul Rat.sub Rat.inv Rat.ofScientific

/-! ## Strings: lower-casing and substring test -/

/-- ASCII lower-casing of one character, as Python's `str.lower()` acts on
the ASCII texts involved. -/
def lowerChar (c : Char) : Char :=
  if 65 ≤ c.toNat ∧ c.toNat ≤ 90 then Char.ofNat (c.toNat + 32) else c

/-- `s.lower()` on a string. -/
def lowerStr (s : String) : String :=
  String.mk (s.data.map lowerChar)

/-- `pat` is a (character-list) prefix of `l`. -/
def charsPrefix : List Char → List Char → Bool
  | [], _ => true
  | _ :: _, [] => false
  | a :: as, b :: bs => a == b && charsPrefix as bs

/-- `pat` occurs as a contiguous substring of `l`. -/
def charsInfix (pat : List Char) : List Char → Bool
  | [] => pat.isEmpty
  | c :: rest => charsPrefix pat (c :: rest) || charsInfix pat rest

/-- Python's `pat in hay` substring test. -/
def strContains (hay pat : String) : Bool :=
  charsInfix pat.data hay.data

/-! ## Data model -/

/-- One transcript record `{text, start, duration}` as delivered by the
transcript collaborator. -/
structure TranscriptEntry where
  text : String
  start : ℚ
  duration : ℚ
deriving DecidableEq, Repr

/-- A processed window `(text, start_time, end_time)` produced by
`_preprocess_transcript`. -/
structure Seg where
  text : String
  start : ℚ
  stop : ℚ
deriving DecidableEq, Repr

/-- A scored window `(segment_index, start_time, end_time, text, probability)`. -/
structure ScoredSeg where
  idx : ℕ
  start : ℚ
  stop : ℚ
  text : String
  prob : ℚ
deriving DecidableEq, Repr

/-- A sponsor interval `{startTime, endTime}` of the final output. -/
structure Interval where
  start : ℚ
  stop : ℚ
deriving DecidableEq, Repr

/-! ## Static configuration (`SponsorClassifier.__init__`) -/

/-- `self.sponsor_keywords`, verbatim from the constructor. -/
def sponsorKeywords : List String :=
  ["sponsor", "sponsored", "sponsorship", "promotion", "promo code",
   "discount", "offer", "check out", "link in description", "link below",
   "use code", "coupon", "deal", "limited time", "special offer",
   "today\x27s video is brought to you by", "thanks to", "brought to you by",
   "take a quick break", "like to thank", "acknowledge our sponsor",
   "back to", "moving on", "let\x27s continue", "get back to",
   "squarespace", "nordvpn", "audible", "skillshare", "raid shadow legends",
   "brilliant", "curiositystream", "dashlane", "expressvpn", "manscaped",
   "our place", "element", "ag1", "eight sleep", "function health",
   "athletic greens", "mattress", "sleep", "supplements", "health",
   "hormone", "testosterone", "blood test", "pan", "kitchenware",
   "air filter", "air purifier", "air quality", "hydration"]

/-- The windower's `transition_keywords` list. -/
def transitionKeywords : List String :=
  ["sponsor", "break", "thank", "brought to you by", "speaking of",
   "back to", "moving on", "continue", "let\x27s talk"]

/-- `start_phrases` of `classify_segments`. -/
def startPhrases : List String :=
  ["take a quick break", "break to", "like to thank", "thanks to our sponsor",
   "brought to you by", "sponsored by", "this episode is sponsored",
   "speaking of", "made possible by", "acknowledge our sponsor"]

/-- `end_phrases` of `classify_segments`. -/
def endPhrases : List String :=
  ["back to", "moving on", "let\x27s continue", "now let\x27s", "now back to",
   "let\x27s get back to", "now that we\x27ve", "anyway", "with that said"]

/-! ## Windower: `_preprocess_transcript` -/

/-- `" ".join([segment["text"] for segment in window])`. -/
def joinTexts (l : List TranscriptEntry) : String :=
  String.intercalate " " (l.map (fun e => e.text))

/-- Build one window record from a slice; `none` models the `IndexError`
raised by `window[0]` / `window[-1]` on an empty slice. -/
def mkSeg (w : List TranscriptEntry) : Option Seg :=
  match w.head?, w.getLast? with
  | some f, some l => some ⟨joinTexts w, f.start, l.start + l.duration⟩
  | _, _ => none

/-- Evaluate `mkSeg` on every slice; `none` if any slice is empty. -/
def mkSegs : List (List TranscriptEntry) → Option (List Seg)
  | [] => some []
  | w :: rest => (mkSeg w).bind (fun s => (mkSegs rest).map (fun l => s :: l))

/-- Python slice `l[i:j]` for `0 ≤ i ≤ j`. -/
def pySlice (l : List TranscriptEntry) (i j : ℕ) : List TranscriptEntry :=
  (l.drop i).take (j - i)

/-- Does the lower-cased text contain any windower transition keyword? -/
def hasTransitionKw (text : String) : Bool :=
  transitionKeywords.any (fun k => strContains (lowerStr text) k)

/-- The slices `transcript[i:i+window_size]` for
`i in range(0, len(transcript) - window_size + 1, step_size)`
(after clamping, `window_size ≤ len(transcript)`, so the range bound is
exact in `ℕ`). -/
def mainSlices (t : List TranscriptEntry) (ws step : ℕ) : List (List TranscriptEntry) :=
  (List.range ((t.length - ws + 1 + step - 1) / step)).map
    (fun k => pySlice t (k * step) (k * step + ws))

/-- The extra tail window `transcript[-window_size:]`, present when the main
slides do not land exactly on the end. -/
def tailSlices (t : List TranscriptEntry) (ws step : ℕ) : List (List TranscriptEntry) :=
  if ws < t.length ∧ (t.length - ws) % step ≠ 0 then
    [t.drop (t.length - ws)]
  else []

/-- The focused windows centred on entries containing transition keywords,
kept only when they have more than 2 entries. -/
def centeredSlices (t : List TranscriptEntry) (ws : ℕ) : List (List TranscriptEntry) :=
  t.enum.filterMap (fun p =>
    if hasTransitionKw p.2.text ∧
        2 < (pySlice t (p.1 - ws / 2) (min t.length (p.1 + ws / 2 + 1))).length then
      some (pySlice t (p.1 - ws / 2) (min t.length (p.1 + ws / 2 + 1)))
    else none)

/-- The clamped window size: `if len(transcript) < window_size: window_size = len(transcript)`. -/
def clampWs (n windowSize : ℕ) : ℕ :=
  if n < windowSize then n else windowSize

/-- The clamped overlap: set to `0` exactly when the window size was clamped. -/
def clampOv (n windowSize overlap : ℕ) : ℕ :=
  if n < windowSize then 0 else overlap

/-- `step_size = max(1, window_size - overlap)` after clamping. -/
def stepSize (n windowSize overlap : ℕ) : ℕ :=
  max 1 (clampWs n windowSize - clampOv n windowSize overlap)

/-- All window slices, in the order Python appends them: the main slide,
the optional tail window, then the keyword-centred windows. -/
def allSlices (t : List TranscriptEntry) (windowSize overlap : ℕ) :
    List (List TranscriptEntry) :=
  mainSlices t (clampWs t.length windowSize) (stepSize t.length windowSize overlap)
    ++ tailSlices t (clampWs t.length windowSize) (stepSize t.length windowSize overlap)
    ++ centeredSlices t (clampWs t.length windowSize)

/-- `_preprocess_transcript(transcript, window_size, overlap)`. -/
def preprocessTranscript (t : List TranscriptEntry) (windowSize overlap : ℕ) :
    Option (List Seg) :=
  mkSegs (allSlices t windowSize overlap)

/-! ## Scorer: `_heuristic_classification` -/

/-- `_heuristic_classification(text)`: keyword count capped at probability 1. -/
def heuristicClassification (text : String) : ℚ :=
  let t := lowerStr text
  let keywordCount := sponsorKeywords.countP (fun k => strContains t (lowerStr k))
  min 1 ((keywordCount : ℚ) / 3)

/-- The heuristic fallback list
`[(i, start, end, text, heuristic(text)) for i, (text, start, end) in enumerate(segments)]`. -/
def heuristicScored (segs : List Seg) : List ScoredSeg :=
  segs.enum.map (fun p => ⟨p.1, p.2.start, p.2.stop, p.2.text, heuristicClassification p.2.text⟩)

/-! ## Oracle wrapper: `_deepseek_classification` -/

/-- One record parsed from the oracle's JSON answer. -/
structure OracleSeg where
  segIndex : ℕ
  startTime : ℚ
  endTime : ℚ
  probability : ℚ
  text : String
  isTransition : Bool
deriving DecidableEq, Repr

/-- What the external HTTP/JSON layer produced: the oracle is disabled
(no API key), the request raised (network error / non-2xx status /
missing response fields), the content failed to parse as JSON, or it
yielded a list of records. -/
inductive OracleOutcome where
  | disabled
  | requestError
  | parseError
  | ok (segments : List OracleSeg)
deriving DecidableEq, Repr

/-- The probability boost for transition segments in the oracle path. -/
def boostProb (s : OracleSeg) : ℚ :=
  if s.isTransition ∧ s.probability > 0.5 then min 1 (s.probability * 1.2)
  else s.probability

/-- `_deepseek_classification(transcript_segments)`, as a function of the
oracle outcome. -/
def deepseekClassification (outcome : OracleOutcome) (segs : List Seg) : List ScoredSeg :=
  match outcome with
  | .disabled => heuristicScored segs
  | .requestError => heuristicScored segs
  | .parseError => heuristicScored segs
  | .ok l => l.map (fun s => ⟨s.segIndex, s.startTime, s.endTime, s.text, boostProb s⟩)

/-! ## Segment builder (`classify_segments`, lines 311–429) -/

/-- `sorted(segment_probs, key=lambda x: x[1])` — a stable sort by window
start time (insertion sort is stable, so it computes exactly what Python's
stable `sorted` does). -/
def sortByStart (l : List ScoredSeg) : List ScoredSeg :=
  List.insertionSort (fun a b => a.start ≤ b.start) l

/-- A transition marker `(i, start, end, text, prob, is_start)`. -/
structure Marker where
  idx : ℕ
  start : ℚ
  stop : ℚ
  text : String
  prob : ℚ
  isStart : Bool
deriving DecidableEq, Repr

/-- Extract the marker for one sorted window, if any: the window's text
contains a start/end transition phrase, or its probability exceeds 0.85. -/
def markerOf (i : ℕ) (s : ScoredSeg) : Option Marker :=
  let tl := lowerStr s.text
  let isTrans := (startPhrases ++ endPhrases).any (fun p => strContains tl p)
  if isTrans ∨ s.prob > 0.85 then
    some ⟨i, s.start, s.stop, s.text, s.prob, startPhrases.any (fun p => strContains tl p)⟩
  else none

/-- The `transition_markers` list, in sorted-window order. -/
def transitionMarkers (sorted : List ScoredSeg) : List Marker :=
  sorted.enum.filterMap (fun p => markerOf p.1 p.2)

/-- Grouping loop: `cur` is the group being built (non-empty), `last` its
last element; a marker starting within 60 seconds of `last`'s end joins
`cur`, otherwise `cur` is closed. -/
def groupMarkersAux : List Marker → List Marker → Marker → List (List Marker)
  | [], cur, _ => [cur]
  | m :: rest, cur, last =>
    if m.start - last.stop < 60 then groupMarkersAux rest (cur ++ [m]) m
    else cur :: groupMarkersAux rest [m] m

/-- `grouped_transitions`: markers clustered by 60-second proximity. -/
def groupMarkers : List Marker → List (List Marker)
  | [] => []
  | m :: rest => groupMarkersAux rest [m] m

/-- The `consecutive_segments` scan for one group: accumulate windows with
`start ≥ earliest` and `prob ≥ threshold`; a sub-threshold window starting
more than 15 seconds after the last accepted window's end breaks the scan. -/
def collectRunAux (th earliest : ℚ) : List ScoredSeg → List (ℚ × ℚ) → List (ℚ × ℚ)
  | [], acc => acc
  | s :: rest, acc =>
    if earliest ≤ s.start then
      if th ≤ s.prob then collectRunAux th earliest rest (acc ++ [(s.start, s.stop)])
      else
        match acc.getLast? with
        | some lastSeg =>
          if s.start - lastSeg.2 > 15 then acc
          else collectRunAux th earliest rest acc
        | none => collectRunAux th earliest rest acc
    else collectRunAux th earliest rest acc

/-- Process one marker group: only groups containing a start-phrase marker
emit a candidate, spanning its accepted run, and only when ≥ 10 seconds. -/
def segmentsOfGroup (sorted : List ScoredSeg) (th : ℚ) (g : List Marker) : List Interval :=
  if g.any (fun m => m.isStart) then
    match g with
    | [] => []
    | m :: rest =>
      let earliest := rest.foldl (fun a x => min a x.start) m.start
      match collectRunAux th earliest sorted [] with
      | [] => []
      | r :: rs =>
        let segStart := rs.foldl (fun a x => min a x.1) r.1
        let segEnd := rs.foldl (fun a x => max a x.2) r.2
        if 10 ≤ segEnd - segStart then [⟨segStart, segEnd⟩] else []
  else []

/-- The threshold-crossing fallback loop from index 1 on: `inS` is
`in_sponsor`, `curStart` is `current_start`, `prev` the previous sorted
window (`sorted_probs[i-1]`).  At the end of the list an open interval is
flushed with the last window's end time. -/
def fallbackAux (th : ℚ) : List ScoredSeg → Bool → ℚ → ScoredSeg → List Interval
  | [], inS, curStart, prev => if inS then [⟨curStart, prev.stop⟩] else []
  | w :: rest, inS, curStart, prev =>
    if th ≤ w.prob ∧ inS = false then fallbackAux th rest true w.start w
    else if inS ∧ (w.prob < th ∨ w.start - prev.stop > 10) then
      ⟨curStart, prev.stop⟩ :: fallbackAux th rest false curStart w
    else fallbackAux th rest inS curStart w

/-- The fallback "standard segment detection approach" (lines 402–429). -/
def fallbackSegments (th : ℚ) : List ScoredSeg → List Interval
  | [] => []
  | w :: rest =>
    if th ≤ w.prob then fallbackAux th rest true w.start w
    else fallbackAux th rest false 0 w

/-- `sponsor_segments` before merging: the transition-cluster path, or, if
it produced nothing, the threshold-crossing fallback. -/
def buildCandidates (sorted : List ScoredSeg) (th : ℚ) : List Interval :=
  let tpath := ((groupMarkers (transitionMarkers sorted)).map (segmentsOfGroup sorted th)).flatten
  if tpath.isEmpty then fallbackSegments th sorted else tpath

/-! ## Merger/refiner (`classify_segments`, lines 431–477) -/

/-- Proximity-merge loop: `cur` is the running interval; a candidate whose
start is within `cur.stop + 15` is folded into it. -/
def mergeCloseAux (cur : Interval) : List Interval → List Interval
  | [] => [cur]
  | s :: rest =>
    if s.start ≤ cur.stop + 15 then mergeCloseAux ⟨cur.start, max cur.stop s.stop⟩ rest
    else cur :: mergeCloseAux s rest

/-- The first merging pass over the candidate list. -/
def mergeClose : List Interval → List Interval
  | [] => []
  | s :: rest => mergeCloseAux s rest

/-- Boundary extension of one merged interval by adjacent windows scoring at
least `0.8 * threshold` (a fold, mirroring the in-place mutation of
`segment_start` / `segment_end` inside the loop). -/
def extendSeg (sorted : List ScoredSeg) (th : ℚ) (seg : Interval) : Interval :=
  sorted.foldl (fun cur w =>
    if th * 0.8 ≤ w.prob then
      if w.start < cur.start ∧ cur.start - w.stop < 10 then ⟨min cur.start w.start, cur.stop⟩
      else if w.stop > cur.stop ∧ w.start - cur.stop < 10 then ⟨cur.start, max cur.stop w.stop⟩
      else cur
    else cur) seg

/-- The minimum-duration filter (line 474): keep intervals of ≥ 15 seconds. -/
def dropShort (l : List Interval) : List Interval :=
  l.filter (fun s => decide (15 ≤ s.stop - s.start))

/-! ## Known-pattern boundary snap: `_specific_sponsor_boundaries` -/

/-- One hard-coded sponsor block template. -/
structure SponsorBlock where
  startPhrasesB : List String
  endPhrasesB : List String
  approxStart : ℚ
  approxEnd : ℚ
deriving DecidableEq, Repr

/-- `sponsor_block_1`, `sponsor_block_2`, `sponsor_block_3`, verbatim. -/
def sponsorBlocks : List SponsorBlock :=
  [⟨["take a quick break", "acknowledge our sponsor", "our place"],
    ["mental health", "speak more broadly"], 645.0, 824.0⟩,
   ⟨["like to take a quick break", "thank our sponsor", "ag1", "athletic greens"],
    ["what are some of the things", "ultra 4"], 1865.0, 2038.0⟩,
   ⟨["take a quick break", "acknowledge one of our", "function health", "hormone"],
    ["let\x27s talk about diet", "nutrition for"], 3557.0, 3668.0⟩]

/-- `int(start // 60)`: the minute bucket of a timestamp. -/
def minuteKey (q : ℚ) : ℤ := (q / 60).floor

/-- The windows filed under minute `k` in the `transcript_text` dictionary
(in insertion order). -/
def minuteSegs (tsegs : List Seg) (k : ℤ) : List Seg :=
  tsegs.filter (fun s => decide (minuteKey s.start = k))

/-- Scan minutes `baseMin`, `baseMin+1`, `baseMin+2` for windows whose
lower-cased text contains one of `phrases`; return the smallest start time
found, if any. -/
def phraseMin (tsegs : List Seg) (baseMin : ℤ) (phrases : List String) : Option ℚ :=
  let cands := ((List.range 3).map (fun j => minuteSegs tsegs (baseMin + j))).flatten
  let hits := cands.filter (fun s => phrases.any (fun p => strContains (lowerStr s.text) p))
  (hits.map (fun s => s.start)).foldl
    (fun acc q => match acc with
      | none => some q
      | some a => some (min a q)) none

/-- Refine one detected segment against the first overlapping sponsor-block
template, snapping its boundaries to matched phrase times. -/
def refineSeg (tsegs : List Seg) (seg : Interval) : Interval :=
  match sponsorBlocks.find?
      (fun b => decide (seg.start ≤ b.approxEnd + 30 ∧ b.approxStart - 30 ≤ seg.stop)) with
  | none => seg
  | some b =>
    let ps := phraseMin tsegs (minuteKey b.approxStart - 1) b.startPhrasesB
    let pe := phraseMin tsegs (minuteKey b.approxEnd - 1) b.endPhrasesB
    match ps, pe with
    | some s, some e => ⟨s, e⟩
    | some s, none => ⟨s, b.approxEnd⟩
    | none, some e => ⟨b.approxStart, e⟩
    | none, none => seg

/-- `_specific_sponsor_boundaries(segments, transcript_segments)`. -/
def specificSponsorBoundaries (segments : List Interval) (tsegs : List Seg) : List Interval :=
  segments.map (refineSeg tsegs)

/-! ## The classification pipeline: `classify_segments` (heuristic scorer) -/

/-- Everything `classify_segments` does downstream of scoring, up to but not
including the boundary snap: sort, build candidates, merge, extend, filter.
Mirrors the guard `if sponsor_segments:` around the merge block. -/
def segmentsFromScored (scored : List ScoredSeg) (th : ℚ) : List Interval :=
  let sorted := sortByStart scored
  match buildCandidates sorted th with
  | [] => []
  | c :: cs => dropShort ((mergeCloseAux c cs).map (extendSeg sorted th))

/-- The interval list `classify_segments` has built just before applying
`_specific_sponsor_boundaries` (heuristic scoring path). -/
def classifyCorePreSnap (processed : List Seg) (th : ℚ) : List Interval :=
  segmentsFromScored (heuristicScored processed) th

/-- The full post-windowing pipeline, including the boundary snap. -/
def classifyCore (processed : List Seg) (th : ℚ) : List Interval :=
  specificSponsorBoundaries (classifyCorePreSnap processed th) processed

/-- `classify_segments(transcript, threshold)` with the heuristic scorer
(no API key).  `none` models an uncaught `IndexError` from the windower;
the empty transcript is guarded and returns `[]` directly. -/
def classifySegments (transcript : List TranscriptEntry) (th : ℚ) :
    Option (List Interval) :=
  if transcript.isEmpty then some []
  else (preprocessTranscript transcript 8 4).map (fun processed => classifyCore processed th)

/-! ## Auxiliary notions used in the statements -/

/-- A time point is covered by an interval list. -/
def covers (l : List Interval) (x : ℚ) : Bool :=
  l.any (fun iv => decide (iv.start ≤ x ∧ x ≤ iv.stop))

/-- The sort key relation of `sortByStart`. -/
instance : IsTotal ScoredSeg (fun a b => a.start ≤ b.start) :=
  ⟨fun a b => le_total a.start b.start⟩

instance : IsTrans ScoredSeg (fun a b => a.start ≤ b.start) :=
  ⟨fun _ _ _ h h' => le_trans h h'⟩

instance : IsAntisymm ScoredSeg (fun a b => a.start < b.start) :=
  ⟨fun _ _ h h' => absurd (lt_trans h h') (lt_irrefl _)⟩

/-! ## Concrete transcripts used as test inputs and counterexamples

`uniformT texts t0` is the transcript whose `i`-th entry has text `texts[i]`,
start `t0 + 4 i` and duration `4`. -/

/-- Build a uniformly timed transcript (4-second entries). -/
def uniformT (texts : List String) (t0 : ℚ) : List TranscriptEntry :=
  texts.enum.map (fun p => ⟨p.2, t0 + 4 * p.1, 4⟩)

/-- Seven entries around `t = 3612 s` (minute 60) whose single window contains
both a start phrase ("hormone") and an end phrase ("nutrition for") of the
hard-coded sponsor block 3. -/
def exC1 : List TranscriptEntry :=
  uniformT ["hormone", "nutrition for", "mattress", "la", "la", "la", "la"] 3612

/-- The same shape at `t = 3610 s`, with "audible" as second keyword. -/
def exC2 : List TranscriptEntry :=
  uniformT ["hormone", "nutrition for", "audible", "la", "la", "la", "la"] 3610

/-- Twenty-eight entries producing two high-probability regions separated by
a sub-threshold but elevated pair of windows: the boundary-extension pass
then grows both detected intervals across the gap until they overlap. -/
def exC3 : List TranscriptEntry :=
  uniformT ["coupon", "audible", "nordvpn", "la", "skillshare", "dashlane", "brilliant", "la",
            "la", "la", "la", "la", "la", "la", "mattress", "hydration", "la", "la", "la", "la",
            "la", "la", "la", "la", "squarespace", "expressvpn", "manscaped", "la"] 0

/-- Eight time-sorted entries: one window `[0, 32]` with three keywords. -/
def exC4a : List TranscriptEntry :=
  uniformT ["la", "coupon", "audible", "nordvpn", "la", "la", "la", "la"] 0

/-- `exC4a` with its first and last entries swapped: same multiset of
records, but the single window now runs from `28` back to `4`. -/
def exC4b : List TranscriptEntry :=
  [⟨"la", 28, 4⟩, ⟨"coupon", 4, 4⟩, ⟨"audible", 8, 4⟩, ⟨"nordvpn", 12, 4⟩,
   ⟨"la", 16, 4⟩, ⟨"la", 20, 4⟩, ⟨"la", 24, 4⟩, ⟨"la", 0, 4⟩]

/-- Three entries, shorter than the window size, with a transition keyword
("sponsor") in the middle entry. -/
def exC5 : List TranscriptEntry :=
  uniformT ["la", "sponsor", "la"] 0

/-- Sixty entries: a start-phrase window ("sponsored by", score 2/3) around
`t ≈ 40 s` and a keyword-dense region (score 1) around `t ≈ 200 s`. -/
def exC7 : List TranscriptEntry :=
  uniformT ((List.range 60).map (fun i =>
    if i = 10 then "sponsored by"
    else if i = 50 then "squarespace"
    else if i = 51 then "expressvpn"
    else if i = 52 then "manscaped"
    else "la")) 0

/-! ## Supporting lemmas -/

/-- Every interval surviving the minimum-duration filter inside the pipeline
is at least 15 seconds long. -/
theorem mem_classifyCorePreSnap_duration {processed : List Seg} {th : ℚ} {iv : Interval}
    (hiv : iv ∈ classifyCorePreSnap processed th) : 15 ≤ iv.stop - iv.start := by
  simp only [classifyCorePreSnap, segmentsFromScored] at hiv
  split at hiv
  · exact absurd hiv (List.not_mem_nil iv)
  · unfold dropShort at hiv
    rw [List.mem_filter] at hiv
    exact of_decide_eq_true hiv.2

/-- The head of `mergeCloseAux cur l` keeps `cur`'s start time. -/
theorem mergeCloseAux_head (l : List Interval) (c : Interval) :
    ∃ d tl, mergeCloseAux c l = ⟨c.start, d⟩ :: tl := by
  induction l generalizing c with
  | nil => exact ⟨c.stop, [], rfl⟩
  | cons s rest ih =>
    unfold mergeCloseAux
    split
    · exact ih ⟨c.start, max c.stop s.stop⟩
    · exact ⟨c.stop, mergeCloseAux s rest, rfl⟩

/-- Consecutive outputs of the merge loop are separated by more than 15 s. -/
theorem mergeCloseAux_chain (l : List Interval) (c : Interval) :
    List.Chain' (fun a b => a.stop + 15 < b.start) (mergeCloseAux c l) := by
  induction l generalizing c with
  | nil => simp [mergeCloseAux]
  | cons s rest ih =>
    unfold mergeCloseAux
    split
    · exact ih ⟨c.start, max c.stop s.stop⟩
    · rename_i h
      obtain ⟨d, tl, heq⟩ := mergeCloseAux_head rest s
      rw [heq]
      refine List.Chain'.cons ?_ (heq ▸ ih s)
      show c.stop + 15 < s.start
      linarith [lt_of_not_le h]

/-- On a list whose consecutive intervals are separated by more than 15 s,
the merge pass is the identity. -/
theorem mergeClose_of_chain :
    ∀ m : List Interval, List.Chain' (fun a b => a.stop + 15 < b.start) m →
      mergeClose m = m
  | [], _ => rfl
  | [_], _ => rfl
  | c :: s :: rest, h => by
    rw [List.chain'_cons] at h
    show mergeCloseAux c (s :: rest) = c :: s :: rest
    unfold mergeCloseAux
    rw [if_neg (by linarith [h.1])]
    have := mergeClose_of_chain (s :: rest) h.2
    simpa [mergeClose] using this

/-- `mkSeg` on a non-empty slice: first entry's start, last entry's
start + duration, joined text. -/
theorem mkSeg_of_ne (w : List TranscriptEntry) (hw : w ≠ []) :
    mkSeg w = some ⟨joinTexts w, (w.head hw).start,
      (w.getLast hw).start + (w.getLast hw).duration⟩ := by
  unfold mkSeg
  rw [List.head?_eq_head hw, List.getLast?_eq_getLast w hw]

/-- `mkSegs` succeeds on a list of non-empty slices. -/
theorem mkSegs_isSome (L : List (List TranscriptEntry)) (h : ∀ w ∈ L, w ≠ []) :
    ∃ cs, mkSegs L = some cs := by
  induction L with
  | nil => exact ⟨[], rfl⟩
  | cons w rest ih =>
    obtain ⟨cs, hcs⟩ := ih (fun x hx => h x (List.mem_cons_of_mem _ hx))
    have hw : w ≠ [] := h w (List.mem_cons_self _ _)
    exact ⟨_ :: cs, by rw [mkSegs, mkSeg_of_ne w hw, hcs]; rfl⟩

/-- Every kept centred window has more than 2 entries, hence is non-empty. -/
theorem centeredSlices_ne_nil (t : List TranscriptEntry) (ws : ℕ) :
    ∀ w ∈ centeredSlices t ws, w ≠ [] := by
  intro w hw
  unfold centeredSlices at hw
  rw [List.mem_filterMap] at hw
  obtain ⟨p, _, hp⟩ := hw
  split at hp
  · rename_i hcond
    cases hp
    intro hnil
    rw [hnil] at hcond
    simp at hcond
  · cases hp

/-- The second component of an `enumFrom` element is an element of the list. -/
theorem snd_mem_of_mem_enumFrom :
    ∀ {l : List TranscriptEntry} {n : ℕ} {p : ℕ × TranscriptEntry},
      p ∈ l.enumFrom n → p.2 ∈ l := by
  intro l
  induction l with
  | nil => intro n p h; cases h
  | cons a as ih =>
    intro n p h
    rw [List.enumFrom_cons, List.mem_cons] at h
    rcases h with h | h
    · rw [h]; exact List.mem_cons_self _ _
    · exact List.mem_cons_of_mem _ (ih h)

/-- Two permuted scored-window lists with pairwise-distinct start times have
the same start-sorted list (stable sort on an injective key). -/
theorem sortByStart_eq_of_perm (l₁ l₂ : List ScoredSeg) (hp : List.Perm l₁ l₂)
    (hnd : (l₁.map (fun s => s.start)).Nodup) : sortByStart l₁ = sortByStart l₂ := by
  have e₁ : List.Perm (sortByStart l₁) l₁ := List.perm_insertionSort _ _
  have e₂ : List.Perm (sortByStart l₂) l₂ := List.perm_insertionSort _ _
  have hperm : List.Perm (sortByStart l₁) (sortByStart l₂) := e₁.trans (hp.trans e₂.symm)
  have hnd₁ : ((sortByStart l₁).map (fun s => s.start)).Nodup :=
    ((e₁.map _).nodup_iff).mpr hnd
  have hnd₂ : ((sortByStart l₂).map (fun s => s.start)).Nodup :=
    ((e₂.map _).nodup_iff).mpr (((hp.map _).nodup_iff).mp hnd)
  have hs₁ : (sortByStart l₁).Pairwise (fun a b => a.start ≤ b.start) :=
    List.sorted_insertionSort _ _
  have hs₂ : (sortByStart l₂).Pairwise (fun a b => a.start ≤ b.start) :=
    List.sorted_insertionSort _ _
  have hlt₁ : (sortByStart l₁).Pairwise (fun a b => a.start < b.start) :=
    (hs₁.and ((List.pairwise_map).mp hnd₁)).imp (fun h => lt_of_le_of_ne h.1 h.2)
  have hlt₂ : (sortByStart l₂).Pairwise (fun a b => a.start < b.start) :=
    (hs₂.and ((List.pairwise_map).mp hnd₂)).imp (fun h => lt_of_le_of_ne h.1 h.2)
  exact List.eq_of_perm_of_sorted hperm hlt₁ hlt₂

/-! ## The claims -/

/-- C9: for every text string, the heuristic score equals `min 1 (k/3)` where
`k` is the number of configured keywords occurring case-insensitively as a
substring, each counted at most once; the score always lies in `[0, 1]`.
(Determinism/purity is inherent: `heuristicClassification` is a function of
the text alone.) -/
theorem C9_heuristic_score (text : String) :
    heuristicClassification text =
      min 1 (((sponsorKeywords.filter
          (fun k => strContains (lowerStr text) (lowerStr k))).length : ℚ) / 3) ∧
    0 ≤ heuristicClassification text ∧ heuristicClassification text ≤ 1 := by
  refine ⟨by simp [heuristicClassification, List.countP_eq_length_filter], ?_, ?_⟩
  · unfold heuristicClassification
    exact le_min (by norm_num) (by positivity)
  · unfold heuristicClassification
    exact min_le_left _ _

/-- C8: when the oracle call fails — the HTTP request raised or the response
content failed to parse — `_deepseek_classification` returns exactly the list
it returns with the oracle disabled: every window paired with its heuristic
score, in input order; no exception propagates (the embedding is total) and
no partial oracle result is mixed in. -/
theorem C8_oracle_failure_eq_disabled (segs : List Seg) :
    deepseekClassification .requestError segs = deepseekClassification .disabled segs ∧
    deepseekClassification .parseError segs = deepseekClassification .disabled segs ∧
    deepseekClassification .disabled segs = heuristicScored segs :=
  ⟨rfl, rfl, rfl⟩

/-- C10: in the threshold-crossing fallback, a window `w` of probability
`≥ threshold` whose start lies more than 10 s after the previous window's end
closes the open interval at the previous window's end (so `w`'s own span is
not covered by it) and does not itself open a new interval; a new interval
opens only at a later window of probability `≥ threshold`. -/
theorem C10_gap_close_behaviour (th curStart : ℚ) (w prev : ScoredSeg)
    (rest : List ScoredSeg) (_hq : th ≤ w.prob) (hgap : prev.stop + 10 < w.start) :
    fallbackAux th (w :: rest) true curStart prev =
        ⟨curStart, prev.stop⟩ :: fallbackAux th rest false curStart w ∧
      prev.stop < w.start ∧
      (∀ (v : ScoredSeg) (rest₂ : List ScoredSeg) (cs : ℚ), th ≤ v.prob →
        fallbackAux th (v :: rest₂) false cs w = fallbackAux th rest₂ true v.start v) ∧
      (∀ (v : ScoredSeg) (rest₂ : List ScoredSeg) (cs : ℚ), v.prob < th →
        fallbackAux th (v :: rest₂) false cs w = fallbackAux th rest₂ false cs v) := by
  refine ⟨?_, by linarith, ?_, ?_⟩
  · simp only [fallbackAux]
    rw [if_neg (by simp), if_pos ⟨trivial, Or.inr (by linarith)⟩]
  · intro v rest₂ cs hv
    simp only [fallbackAux]
    rw [if_pos ⟨hv, trivial⟩]
  · intro v rest₂ cs hv
    simp only [fallbackAux]
    rw [if_neg (fun hc => absurd hc.1 (not_le.mpr hv)), if_neg (by simp)]

/-- C10 witness: a concrete gap-following qualifying window. -/
theorem C10_witness :
    ((7 : ℚ)/10 ≤ (1 : ℚ)) ∧ ((5 : ℚ) + 10 < 30) ∧
    (fallbackAux (7/10) [⟨1, 30, 35, "w", 1⟩] true 0 ⟨0, 0, 5, "p", 1⟩ =
        ⟨0, 5⟩ :: fallbackAux (7/10) [] false 0 ⟨1, 30, 35, "w", 1⟩ ∧
      (5 : ℚ) < 30 ∧
      (∀ (v : ScoredSeg) (rest₂ : List ScoredSeg) (cs : ℚ), (7:ℚ)/10 ≤ v.prob →
        fallbackAux (7/10) (v :: rest₂) false cs ⟨1, 30, 35, "w", 1⟩ =
          fallbackAux (7/10) rest₂ true v.start v) ∧
      (∀ (v : ScoredSeg) (rest₂ : List ScoredSeg) (cs : ℚ), v.prob < (7:ℚ)/10 →
        fallbackAux (7/10) (v :: rest₂) false cs ⟨1, 30, 35, "w", 1⟩ =
          fallbackAux (7/10) rest₂ false cs v)) :=
  ⟨by norm_num, by norm_num,
    C10_gap_close_behaviour (7/10) 0 ⟨1, 30, 35, "w", 1⟩ ⟨0, 0, 5, "p", 1⟩ []
      (by norm_num) (by norm_num)⟩

/-- C3 (amended): the proximity-merge pass itself always yields a list whose
consecutive intervals are separated by more than 15 seconds, and re-running
the merge on its own output is a no-op.  (The subsequent boundary-extension
pass can reintroduce overlap in the final output — see the counterexample.) -/
theorem C3_merge_separation_idempotent (l : List Interval) :
    List.Chain' (fun a b => a.stop + 15 < b.start) (mergeClose l) ∧
      mergeClose (mergeClose l) = mergeClose l := by
  have hc : List.Chain' (fun a b => a.stop + 15 < b.start) (mergeClose l) := by
    cases l with
    | nil => simp [mergeClose]
    | cons c rest => exact mergeCloseAux_chain rest c
  exact ⟨hc, mergeClose_of_chain _ hc⟩

/-- C3 counterexample: a transcript on which `classify_segments` returns two
overlapping intervals, so the proximity-merge pass is not idempotent on the
final output (re-running it merges them). -/
theorem C3_counterexample :
    classifySegments exC3 (7/10) = some [⟨0, 112⟩, ⟨48, 112⟩] ∧
      mergeClose [⟨0, 112⟩, ⟨48, 112⟩] = [⟨0, 112⟩] ∧
      ((⟨48, 112⟩ : Interval).start < (⟨0, 112⟩ : Interval).stop) :=
  ⟨by decide, by decide, by norm_num⟩

/-- C1 (amended): every interval produced by the pipeline up to and including
the minimum-duration filter — i.e. the list handed to the known-pattern
boundary snap — satisfies `endTime - startTime ≥ 15`; the snap step can then
shorten intervals below 15 s. -/
theorem C1_min_duration_before_snap (processed : List Seg) (th : ℚ) (iv : Interval)
    (hiv : iv ∈ classifyCorePreSnap processed th) : 15 ≤ iv.stop - iv.start :=
  mem_classifyCorePreSnap_duration hiv

/-- C1 witness: a concrete window list whose pre-snap output is `[100, 130]`. -/
theorem C1_witness :
    ((⟨100, 130⟩ : Interval) ∈
        classifyCorePreSnap [⟨"hormone mattress la", 100, 130⟩] (1/2)) ∧
      (15 : ℚ) ≤ (130 : ℚ) - 100 :=
  ⟨by decide, C1_min_duration_before_snap [⟨"hormone mattress la", 100, 130⟩] (1/2)
    ⟨100, 130⟩ (by decide)⟩

/-- C1 counterexample: on `exC1` the full `classify_segments` returns a single
interval of length 0 (< 15): the boundary snap moved both endpoints of the
detected interval to the same phrase time. -/
theorem C1_counterexample :
    classifySegments exC1 (1/2) = some [⟨3612, 3612⟩] ∧
      ¬ (15 ≤ (3612 : ℚ) - 3612) :=
  ⟨by decide, by norm_num⟩

/-- C2 (amended): every interval in the list `classify_segments` builds before
the known-pattern boundary snap satisfies `endTime > startTime`; the snap can
produce `endTime ≤ startTime`. -/
theorem C2_positive_length_before_snap (processed : List Seg) (th : ℚ) (iv : Interval)
    (hiv : iv ∈ classifyCorePreSnap processed th) : iv.start < iv.stop := by
  have := mem_classifyCorePreSnap_duration hiv
  linarith

/-- C2 witness: a concrete window list whose pre-snap output is `[200, 240]`. -/
theorem C2_witness :
    ((⟨200, 240⟩ : Interval) ∈
        classifyCorePreSnap [⟨"hormone audible la", 200, 240⟩] (1/2)) ∧
      (200 : ℚ) < 240 :=
  ⟨by decide, C2_positive_length_before_snap [⟨"hormone audible la", 200, 240⟩] (1/2)
    ⟨200, 240⟩ (by decide)⟩

/-- C2 counterexample: on `exC2` the returned interval has
`endTime = startTime`, violating the `endTime > startTime` invariant. -/
theorem C2_counterexample :
    classifySegments exC2 (1/2) = some [⟨3610, 3610⟩] ∧
      ¬ ((3610 : ℚ) < 3610) :=
  ⟨by decide, by norm_num⟩

/-- C4 (amended): the segment-building stages of `classify_segments` depend on
the scored windows only through the start-sorted list: two scored-window lists
that are permutations of each other with pairwise-distinct start times produce
identical interval lists.  (The transcript itself is never sorted: permuting
transcript entries changes the windows and can change the result — see the
counterexample.) -/
theorem C4_scored_perm_invariance (l₁ l₂ : List ScoredSeg) (th : ℚ)
    (hp : List.Perm l₁ l₂) (hnd : (l₁.map (fun s => s.start)).Nodup) :
    segmentsFromScored l₁ th = segmentsFromScored l₂ th := by
  unfold segmentsFromScored
  rw [sortByStart_eq_of_perm l₁ l₂ hp hnd]

/-- C4 witness: two permuted two-window lists give the same segments. -/
theorem C4_witness :
    List.Perm [(⟨0, 10, 15, "a", 1⟩ : ScoredSeg), ⟨1, 0, 5, "b", 0⟩]
        [⟨1, 0, 5, "b", 0⟩, ⟨0, 10, 15, "a", 1⟩] ∧
      (([(⟨0, 10, 15, "a", 1⟩ : ScoredSeg), ⟨1, 0, 5, "b", 0⟩].map
          (fun s => s.start)).Nodup) ∧
      segmentsFromScored [⟨0, 10, 15, "a", 1⟩, ⟨1, 0, 5, "b", 0⟩] (1/2) =
        segmentsFromScored [⟨1, 0, 5, "b", 0⟩, ⟨0, 10, 15, "a", 1⟩] (1/2) :=
  ⟨by decide, by decide,
    C4_scored_perm_invariance [⟨0, 10, 15, "a", 1⟩, ⟨1, 0, 5, "b", 0⟩]
      [⟨1, 0, 5, "b", 0⟩, ⟨0, 10, 15, "a", 1⟩] (1/2) (by decide) (by decide)⟩

/-- C4 counterexample: `exC4b` is a permutation of the time-sorted `exC4a`,
yet `classify_segments` returns `[[0, 32]]` on the sorted transcript and `[]`
on the permuted one: the classifier does not sort the transcript itself. -/
theorem C4_counterexample :
    List.Perm exC4b exC4a ∧
      List.Pairwise (fun a b : TranscriptEntry => a.start ≤ b.start) exC4a ∧
      classifySegments exC4a (1/2) = some [⟨0, 32⟩] ∧
      classifySegments exC4b (1/2) = some [] ∧
      some [(⟨0, 32⟩ : Interval)] ≠ (some [] : Option (List Interval)) :=
  ⟨by decide, by decide, by decide, by decide, by decide⟩

/-- C5 (amended): for a non-empty transcript shorter than the window size,
the windower's FIRST window covers the whole transcript — its text is the
space-joined concatenation of all entries' texts, its start the first entry's
start and its end the last entry's start plus duration — and if no entry's
text contains a windower transition keyword then it is the only window.
(An entry containing a transition keyword can add extra centred windows, as
in the counterexample; whether it does depends on the more-than-2-entries
guard of the centred-window loop.) -/
theorem C5_whole_window (t : List TranscriptEntry) (ws ov : ℕ)
    (hne : t ≠ []) (hlen : t.length < ws) :
    ∃ extras, preprocessTranscript t ws ov =
        some ({ text := joinTexts t, start := (t.head hne).start,
                stop := (t.getLast hne).start + (t.getLast hne).duration } :: extras) ∧
      ((∀ e ∈ t, hasTransitionKw e.text = false) → extras = []) := by
  have hn : 0 < t.length := List.length_pos.mpr hne
  have hws : clampWs t.length ws = t.length := if_pos hlen
  have hov : clampOv t.length ws ov = 0 := if_pos hlen
  have hstep : stepSize t.length ws ov = t.length := by
    unfold stepSize
    rw [hws, hov, Nat.sub_zero, Nat.max_eq_right hn]
  have hmain : mainSlices t t.length t.length = [t] := by
    unfold mainSlices
    have h1 : t.length - t.length + 1 + t.length - 1 = t.length := by omega
    rw [h1, Nat.div_self hn]
    have h2 : List.range 1 = [0] := rfl
    rw [h2]
    simp [pySlice]
  have htail : tailSlices t t.length t.length = [] := by
    unfold tailSlices
    rw [if_neg]
    intro hc
    exact absurd hc.1 (lt_irrefl _)
  obtain ⟨cs, hcs⟩ := mkSegs_isSome (centeredSlices t t.length) (centeredSlices_ne_nil t _)
  refine ⟨cs, ?_, ?_⟩
  · unfold preprocessTranscript allSlices
    rw [hws, hstep, hmain, htail, List.append_nil, List.singleton_append]
    rw [mkSegs, mkSeg_of_ne t hne, hcs]
    rfl
  · intro hkw
    have hcent : centeredSlices t t.length = [] := by
      unfold centeredSlices
      rw [List.filterMap_eq_nil_iff]
      intro p hp
      rw [if_neg]
      intro hc
      have := hkw p.2 (snd_mem_of_mem_enumFrom hp)
      rw [this] at hc
      exact Bool.false_ne_true hc.1
    rw [hcent] at hcs
    exact (Option.some.inj hcs).symm

/-- C5 witness: a two-entry transcript produces exactly its whole window. -/
theorem C5_witness :
    (([⟨"la", 0, 2⟩, ⟨"lo", 3, 2⟩] : List TranscriptEntry) ≠ []) ∧
      (([⟨"la", 0, 2⟩, ⟨"lo", 3, 2⟩] : List TranscriptEntry).length < 8) ∧
      (∃ extras, preprocessTranscript [⟨"la", 0, 2⟩, ⟨"lo", 3, 2⟩] 8 4 =
          some (⟨"la lo", 0, 5⟩ :: extras) ∧
        ((∀ e ∈ ([⟨"la", 0, 2⟩, ⟨"lo", 3, 2⟩] : List TranscriptEntry),
            hasTransitionKw e.text = false) → extras = [])) :=
  ⟨by decide, by decide, by
    exact C5_whole_window [⟨"la", 0, 2⟩, ⟨"lo", 3, 2⟩] 8 4 (by decide) (by decide)⟩

/-- C5 counterexample: a three-entry transcript containing "sponsor" yields
TWO windows (the whole-transcript window plus a centred one), so the windower
does not produce exactly one window. -/
theorem C5_counterexample :
    preprocessTranscript exC5 8 4 =
        some [⟨"la sponsor la", 0, 12⟩, ⟨"la sponsor la", 0, 12⟩] ∧
      (∀ w : Seg, preprocessTranscript exC5 8 4 ≠ some [w]) := by
  have h : preprocessTranscript exC5 8 4 =
      some [⟨"la sponsor la", 0, 12⟩, ⟨"la sponsor la", 0, 12⟩] := by decide
  refine ⟨h, ?_⟩
  intro w hw
  rw [h] at hw
  simp at hw

/-- C6 (amended): the windower applied to the empty transcript fails with an
`IndexError` (modelled: returns `none`) for every window size and overlap;
the no-error/empty-result guarantee holds one level up: `classify_segments`
returns `[]` for the empty transcript without invoking the windower. -/
theorem C6_empty_transcript (ws ov : ℕ) (th : ℚ) :
    preprocessTranscript [] ws ov = none ∧ classifySegments [] th = some [] := by
  constructor
  · have hws : clampWs 0 ws = 0 := by
      unfold clampWs
      split
      · rfl
      · omega
    have h2 : stepSize 0 ws ov = 1 := by
      unfold stepSize
      rw [hws]
      simp
    show mkSegs (allSlices [] ws ov) = none
    unfold allSlices
    simp only [List.length_nil, hws, h2]
    simp [mainSlices, tailSlices, centeredSlices, pySlice, mkSegs, mkSeg]
  · simp [classifySegments]

/-- C6 counterexample: at the default window parameters the windower on the
empty transcript raises (returns `none`), not the empty window list. -/
theorem C6_counterexample :
    preprocessTranscript [] 8 4 = none ∧ preprocessTranscript [] 8 4 ≠ some [] :=
  ⟨by decide, by decide⟩

/-- C7 (amended): threshold monotonicity holds at the window level: for
`t1 ≤ t2`, every heuristically scored window passing threshold `t2` also
passes `t1`.  End-to-end interval coverage is NOT monotone in the threshold:
lowering the threshold can switch the segment builder between the
transition-cluster path and the fallback path and move the coverage entirely
— see the counterexample. -/
theorem C7_window_threshold_monotone (segs : List Seg) (t1 t2 : ℚ) (h12 : t1 ≤ t2)
    (w : ScoredSeg)
    (hw : w ∈ (heuristicScored segs).filter (fun s => decide (t2 ≤ s.prob))) :
    w ∈ (heuristicScored segs).filter (fun s => decide (t1 ≤ s.prob)) := by
  rw [List.mem_filter] at hw ⊢
  exact ⟨hw.1, decide_eq_true (le_trans h12 (of_decide_eq_true hw.2))⟩

/-- C7 witness: a window of score 2/3 passes both 2/3 and 1/3. -/
theorem C7_witness :
    ((1 : ℚ)/3 ≤ 2/3) ∧
      ((⟨0, 0, 20, "hormone mattress la", 2/3⟩ : ScoredSeg) ∈
        (heuristicScored [⟨"hormone mattress la", 0, 20⟩]).filter
          (fun s => decide ((2 : ℚ)/3 ≤ s.prob))) ∧
      ((⟨0, 0, 20, "hormone mattress la", 2/3⟩ : ScoredSeg) ∈
        (heuristicScored [⟨"hormone mattress la", 0, 20⟩]).filter
          (fun s => decide ((1 : ℚ)/3 ≤ s.prob))) :=
  ⟨by norm_num, by decide,
    C7_window_threshold_monotone [⟨"hormone mattress la", 0, 20⟩] (1/3) (2/3)
      (by norm_num) ⟨0, 0, 20, "hormone mattress la", 2/3⟩ (by decide)⟩

/-- C7 counterexample: on `exC7`, at the lower threshold 0.3 the classifier
covers `[16, 64]` only, while at 0.7 it covers `[176, 224]` only: the time
point 200 is covered at the higher threshold but not at the lower one, so the
lower threshold's coverage is not a superset. -/
theorem C7_counterexample :
    ((3 : ℚ)/10 < 7/10) ∧
      classifySegments exC7 (3/10) = some [⟨16, 64⟩] ∧
      classifySegments exC7 (7/10) = some [⟨176, 224⟩] ∧
      covers [⟨176, 224⟩] 200 = true ∧
      covers [⟨16, 64⟩] 200 = false :=
  ⟨by norm_num, by decide, by decide, by decide, by decide⟩

end SponsorSniper

